import Mathlib

/-!
# Verification of the InkBattle room game-session engine

A shallow embedding, in Lean 4, of the core of the InkBattle backend:
the phase state machine (roundPhases, final team-aware variant), the
drawer-rotation algorithm, the scoring engine (gameHelpers.js), the
submit_guess and join_room socket handlers (socket.js), and the
word-selection gateway (wordSelector.js).

Numbers that the JavaScript source keeps non-negative (remaining time,
scores, counts, coin amounts) are embedded as naturals; JavaScript
Math.floor on a non-negative quotient is Nat division and Math.ceil of
n / k is (n + k - 1) / k.  Database rows are embedded as lists of
records; a Sequelize UPDATE ... WHERE is a List.map guarded by the
WHERE condition, COUNT is List.length of a List.filter, findOne is
List.find?.  Fallible steps return Option.
-/

namespace InkBattle

/-- Round phase values stored in the rooms table (roundPhase column). -/
inductive Phase
  | noPhase
  | selecting_drawer
  | choosing_word
  | drawing
  | reveal
  | interval
  deriving DecidableEq, Repr

/-- A row of the RoomParticipant table, restricted to the columns the
engine reads or writes. -/
structure Participant where
  userId : Nat
  team : Option String
  score : Nat
  isDrawer : Bool
  hasDrawn : Bool
  hasGuessedThisRound : Bool
  isActive : Bool
  hasPaidEntry : Bool
  deriving DecidableEq, Repr

/-- Default participant record used for out-of-range list indexing
(the JavaScript source would produce undefined there). -/
def defaultP : Participant :=
  { userId := 0, team := none, score := 0, isDrawer := false,
    hasDrawn := false, hasGuessedThisRound := false, isActive := false,
    hasPaidEntry := false }

instance : Inhabited Participant := ⟨defaultP⟩

/-- A JavaScript value that the engine stores in currentWordOptions:
the source assigns either null, a single string (the result of
getRandomWordForTheme) or an array of strings.  Truthiness and the
length property follow JavaScript semantics. -/
inductive JsWords
  | jsNull
  | jsStr (s : String)
  | jsArr (l : List String)
  deriving DecidableEq, Repr

/-- JavaScript falsiness of a JsWords value: null is falsy, an empty
string is falsy, every array (even empty) is truthy. -/
def JsWords.falsy : JsWords → Bool
  | .jsNull => true
  | .jsStr s => s.data.isEmpty
  | .jsArr _ => false

/-- The JavaScript length property: character count for a string,
element count for an array.  (For null the source never reads length:
it is guarded by the short-circuiting falsiness test.) -/
def JsWords.len : JsWords → Nat
  | .jsNull => 0
  | .jsStr s => s.length
  | .jsArr l => l.length

/-- A row of the rooms table, restricted to the columns the engine
reads or writes.  gameMode is kept as the raw string because the
source compares it against different literals in different places
("1v1" in the rotation, "team_vs_team" in the guess handler). -/
structure Room where
  gameMode : String
  status : String
  roundPhase : Phase
  roundRemainingTime : Nat
  currentRound : Nat
  currentDrawerId : Option Nat
  currentWord : Option String
  currentWordOptions : Option JsWords
  drawerPointerIndex : Nat
  drawnUserIds : List Nat
  targetPoints : Nat
  maxPointsPerRound : Nat
  entryPoints : Nat
  maxPlayers : Nat
  ownerId : Nat
  themeId : Option Nat
  deriving DecidableEq, Repr

/-- The persisted state of one room: its rooms row and its
RoomParticipant rows. -/
structure GState where
  room : Room
  participants : List Participant
  deriving DecidableEq, Repr

/-- RoomParticipant.count with a boolean WHERE condition. -/
def countP (ps : List Participant) (f : Participant → Bool) : Nat :=
  (ps.filter f).length

/-- RoomParticipant.findOne by userId. -/
def findParticipant (ps : List Participant) (uid : Nat) : Option Participant :=
  ps.find? (fun p => p.userId == uid)

/-! ## gameHelpers.js -/

/-- PHASE_DURATIONS from gameHelpers.js (seconds). -/
def PHASE_DURATIONS_selecting_drawer : Nat := 5

/-- choosing_word duration (seconds). -/
def PHASE_DURATIONS_choosing_word : Nat := 10

/-- drawing duration (seconds). -/
def PHASE_DURATIONS_drawing : Nat := 80

/-- reveal duration (seconds). -/
def PHASE_DURATIONS_reveal : Nat := 7

/-- interval duration (seconds). -/
def PHASE_DURATIONS_interval : Nat := 4

/-- calculateEntryCost from gameHelpers.js: the entry cost is exactly
the configured entryPoints (the voiceEnabled argument is ignored). -/
def calculateEntryCost (entryPoints : Nat) : Nat :=
  entryPoints

/-- calculateGuessReward from gameHelpers.js:
min(Math.ceil(remainingTime / 8), maxPoints). -/
def calculateGuessReward (remainingTime maxPoints : Nat) : Nat :=
  min ((remainingTime + 7) / 8) maxPoints

/-- calculateTimeReduction from gameHelpers.js:
Math.floor(remainingTime / numPlayers). -/
def calculateTimeReduction (remainingTime numPlayers : Nat) : Nat :=
  remainingTime / numPlayers

/-- Stable ordering key used throughout the rotation code:
ascending userId (the comparator (a, b) => a.userId - b.userId). -/
def userLE (a b : Participant) : Prop :=
  a.userId ≤ b.userId

instance : DecidableRel userLE := fun a b => Nat.decLe _ _

instance : IsTotal Participant userLE :=
  ⟨fun a b => Nat.le_total a.userId b.userId⟩

instance : IsTrans Participant userLE :=
  ⟨fun _ _ _ hab hbc => Nat.le_trans hab hbc⟩

/-- participants.sort((a, b) => a.userId - b.userId): a stable sort by
ascending userId (JavaScript Array.prototype.sort is stable). -/
def sortByUserId (ps : List Participant) : List Participant :=
  List.insertionSort userLE ps

/-- Descending-score comparator (a, b) => b.score - a.score used by
endGame and checkGameEnd. -/
def scoreGE (a b : Participant) : Prop :=
  b.score ≤ a.score

instance : DecidableRel scoreGE := fun a b => Nat.decLe _ _

instance : IsTotal Participant scoreGE :=
  ⟨fun a b => Nat.le_total b.score a.score⟩

instance : IsTrans Participant scoreGE :=
  ⟨fun _ _ _ hab hbc => Nat.le_trans hbc hab⟩

/-- participants.sort((a, b) => b.score - a.score): stable sort by
descending score. -/
def sortByScoreDesc (ps : List Participant) : List Participant :=
  List.insertionSort scoreGE ps

/-! ## utils/wordSelector.js -/

/-- A row of the translations table, restricted to the columns the
word selector reads. -/
structure Translation where
  languageId : Nat
  scriptType : String
  translatedText : String
  deriving DecidableEq, Repr

/-- A keyword of a theme together with its eagerly loaded
translations. -/
structure Keyword where
  translations : List Translation
  deriving DecidableEq, Repr

/-- The per-keyword fallback chain of getWordsForTheme (section 4 of
wordSelector.js).  Priority 1: the target language and script;
priority 2 (only when the target language is not English): the other
script of the same language; priority 3: English roman.  When all
three miss, the keyword is skipped (none). -/
def resolveKeyword (targetLangId englishId : Nat)
    (targetLangCode targetScriptType : String) (k : Keyword) :
    Option String :=
  match k.translations.find? (fun t =>
      t.languageId == targetLangId && t.scriptType == targetScriptType) with
  | some t => some t.translatedText
  | none =>
    let second :=
      if targetLangCode ≠ "en" then
        let fb := if targetScriptType == "roman" then "native" else "roman"
        k.translations.find? (fun t =>
          t.languageId == targetLangId && t.scriptType == fb)
      else none
    match second with
    | some t => some t.translatedText
    | none =>
      match k.translations.find? (fun t =>
          t.languageId == englishId && t.scriptType == "roman") with
      | some t => some t.translatedText
      | none => none

/-- The word list getWordsForTheme builds before shuffling: the
resolvable surface strings of the theme's keywords, in keyword
order. -/
def resolvedWords (targetLangId englishId : Nat)
    (targetLangCode targetScriptType : String) (ks : List Keyword) :
    List String :=
  ks.filterMap (resolveKeyword targetLangId englishId targetLangCode targetScriptType)

/-- getWordsForTheme's final step: shuffle then slice(0, limit).  The
shuffle is modelled by an explicit argument (the shuffled list), which
callers constrain to be a permutation of the resolved words. -/
def getWordsForThemeResult (shuffled : List String) (limit : Nat) :
    List String :=
  shuffled.take limit

/-- getRandomWordForTheme from wordSelector.js: despite its plural
internals it returns words[0] (a single string) when any word
resolves, and null otherwise. -/
def getRandomWordForTheme (themeWords : List String) : Option String :=
  themeWords.head?

/-! ## Word options computed at drawer selection
(selectDrawerAndStartWordChoice, final variant). -/

/-- The built-in generic fallback word list of
selectDrawerAndStartWordChoice. -/
def fallbackWords : List String :=
  ["apple", "banana", "cat", "dog", "elephant", "flower", "guitar",
   "house", "tree", "sun"]

/-- The word-options value the final selectDrawerAndStartWordChoice
stores in currentWordOptions and later delivers as word_options.
themedResult is what getRandomWordForTheme returned when the room has
a theme (none both when the room has no theme and when the lookup
returned null: in the first case words is the initial empty array, in
the second it is null; both are replaced by the fallback).
shuffledFallback models fallback.sort(() => 0.5 - Math.random()).
The guard is the literal JavaScript test
(!words || words.length < 3), evaluated with JavaScript string
semantics: when getRandomWordForTheme returned a single word, length
is its character count. -/
def computeWordOptions (hasTheme : Bool) (themedResult : Option String)
    (shuffledFallback : List String) : JsWords :=
  let words : JsWords :=
    if hasTheme then
      match themedResult with
      | some w => JsWords.jsStr w
      | none => JsWords.jsNull
    else JsWords.jsArr []
  if words.falsy || words.len < 3 then
    JsWords.jsArr (shuffledFallback.take 3)
  else words

/-! ## Drawer rotation (selectDrawerAndStartWordChoice, final
team-aware variant in the round-phase engine). -/

/-- The alternating interleaved team sequence
[blue0, orange0, blue1, orange1, ...] built by the loop
for i < maxLen: push blue i if present; push orange i if present;
once one side is exhausted the remainder of the other follows in
order. -/
def interleave : List Participant → List Participant → List Participant
  | [], ys => ys
  | xs, [] => xs
  | x :: xs, y :: ys => x :: y :: interleave xs ys

/-- The eligibility walk of the team branch: for i = 0 .. total-1 try
idx = (pointer + i) % total and take the first candidate whose userId
is not in drawnUserIds, returning it with the advanced pointer
(idx + 1) % total.  The fuel argument is the loop bound
(alternatingList.length). -/
def walkFrom (alt : List Participant) (drawn : List Nat) :
    Nat → Nat → Option (Participant × Nat)
  | _, 0 => none
  | pointer, fuel + 1 =>
    if alt.length = 0 then none
    else
      if (alt.getD (pointer % alt.length) defaultP).userId ∈ drawn then
        walkFrom alt drawn (pointer + 1) fuel
      else
        some (alt.getD (pointer % alt.length) defaultP,
          (pointer % alt.length + 1) % alt.length)

/-- Result of one drawer selection: the chosen drawer, the updated
rotation pointer, and the updated drawnUserIds (after the final push
of the winner when absent). -/
structure SelectResult where
  drawer : Participant
  pointer : Nat
  drawnUserIds : List Nat
  deriving DecidableEq, Repr

/-- The blue sub-list of the team branch:
participants.filter(p => p.team === "blue").sort by userId. -/
def blueOf (sorted : List Participant) : List Participant :=
  (sorted.filter (fun p => p.team == some "blue")).insertionSort userLE

/-- The orange sub-list of the team branch. -/
def orangeOf (sorted : List Participant) : List Participant :=
  (sorted.filter (fun p => p.team == some "orange")).insertionSort userLE

/-- The alternating interleaved team sequence of the team branch. -/
def altOf (sorted : List Participant) : List Participant :=
  interleave (blueOf sorted) (orangeOf sorted)

/-- The flat (1v1 / empty-team fallback) pick: normalise the pointer,
select sorted[pointer], advance the pointer by one modulo the count;
drawnUserIds pass through unchanged (the final push happens in
finishPick). -/
def flatPick (sorted : List Participant) (pointer0 : Nat)
    (drawn0 : List Nat) : Participant × Nat × List Nat :=
  (sorted.getD (pointer0 % sorted.length) defaultP,
    (pointer0 % sorted.length + 1) % sorted.length, drawn0)

/-- The team-branch pick: walk the alternating sequence from the
pointer skipping drawn users; when everyone has drawn, reset
drawnUserIds to empty and take alternatingList[pointer] directly (an
out-of-range pointer is the JavaScript undefined crash, none). -/
def teamPick (sorted : List Participant) (pointer0 : Nat)
    (drawn0 : List Nat) : Option (Participant × Nat × List Nat) :=
  match walkFrom (altOf sorted) drawn0 pointer0 (altOf sorted).length with
  | some (c, p1) => some (c, p1, drawn0)
  | none =>
    match (altOf sorted)[pointer0]? with
    | none => none
    | some c => some (c, (pointer0 + 1) % (altOf sorted).length, ([] : List Nat))

/-- The common tail of the selection: append the winner to
drawnUserIds when absent. -/
def finishPick : Participant × Nat × List Nat → SelectResult
  | (nextDrawer, pointer1, drawnMid) =>
    { drawer := nextDrawer, pointer := pointer1,
      drawnUserIds :=
        if nextDrawer.userId ∈ drawnMid then drawnMid
        else drawnMid ++ [nextDrawer.userId] }

/-- The pure selection core of the final
selectDrawerAndStartWordChoice: given the room's gameMode, the active
participants (before sorting), the stored drawerPointerIndex and
drawnUserIds, produce the selection.  none models the two ways the
JavaScript produces no drawer: an empty participant list (early
return) and the out-of-range direct index alternatingList[pointer] of
the reset branch (undefined, crashing the subsequent field access). -/
def selectDrawerCore (gameMode : String) (active : List Participant)
    (pointer0 : Nat) (drawn0 : List Nat) : Option SelectResult :=
  if sortByUserId active = [] then none
  else if gameMode = "1v1" then
    some (finishPick (flatPick (sortByUserId active) pointer0 drawn0))
  else if blueOf (sortByUserId active) = [] ∨ orangeOf (sortByUserId active) = [] then
    some (finishPick (flatPick (sortByUserId active) pointer0 drawn0))
  else
    (teamPick (sortByUserId active) pointer0 drawn0).map finishPick

/-- The trace of k consecutive flat-mode selections over an unchanged
sorted participant list, starting from a given pointer: each step
selects sorted[pointer % n] and advances the pointer to
(pointer % n + 1) % n, exactly as the 1v1 branch of
selectDrawerCore. -/
def flatSelectionList (sorted : List Participant) : Nat → Nat → List Participant
  | _, 0 => []
  | pointer, k + 1 =>
    sorted.getD (pointer % sorted.length) defaultP ::
      flatSelectionList sorted ((pointer % sorted.length + 1) % sorted.length) k

/-! ## Game end (gameHelpers.js: checkGameEnd, endGame). -/

/-- One entry of the rankings array endGame broadcasts. -/
structure RankEntry where
  place : Nat
  userId : Nat
  score : Nat
  coinsAwarded : Nat
  deriving DecidableEq, Repr

/-- One CoinTransaction ledger credit row endGame creates. -/
structure LedgerTx where
  userId : Nat
  amount : Nat
  reason : String
  deriving DecidableEq, Repr

/-- The rankings endGame builds: places 1..3 receive
entryCost * multiplier with multipliers [3, 2, 1]; every later place
receives 0.  The input list is already sorted by descending score. -/
def endGameRankings (entryCost : Nat) (sorted : List Participant) :
    List RankEntry :=
  sorted.enum.map (fun ip =>
    if ip.1 < 3 then
      { place := ip.1 + 1, userId := ip.2.userId, score := ip.2.score,
        coinsAwarded := entryCost * (3 - ip.1) }
    else
      { place := ip.1 + 1, userId := ip.2.userId, score := ip.2.score,
        coinsAwarded := 0 })

/-- The CoinTransaction credits endGame records: one per rewarded
place, with reason tag game_reward_place_N. -/
def endGameTxs (entryCost : Nat) (sorted : List Participant) :
    List LedgerTx :=
  (sorted.take 3).enum.map (fun ip =>
    { userId := ip.2.userId, amount := entryCost * (3 - ip.1),
      reason := "game_reward_place_" ++ toString (ip.1 + 1) })

/-- endGame from gameHelpers.js: set room status to finished, sort the
participants by descending score, pay the top three
entryCost * {3, 2, 1} recording a ledger credit each, give everyone
else 0.  Returns the updated room row, the broadcast rankings and the
created ledger rows. -/
def endGame (room : Room) (participants : List Participant) :
    Room × List RankEntry × List LedgerTx :=
  let room1 := { room with status := "finished" }
  let sorted := sortByScoreDesc participants
  let entryCost := calculateEntryCost room.entryPoints
  (room1, endGameRankings entryCost sorted, endGameTxs entryCost sorted)

/-- checkGameEnd from gameHelpers.js, as a state step: scan the active
participants in descending score order for one with
score >= targetPoints; when found, the game ends (room status becomes
finished).  The boolean reports whether the game ended. -/
def checkGameEndStep (s : GState) : GState × Bool :=
  let ranked := sortByScoreDesc (s.participants.filter (fun p => p.isActive))
  match ranked.find? (fun p => decide (s.room.targetPoints ≤ p.score)) with
  | some _ => ({ s with room := { s.room with status := "finished" } }, true)
  | none => (s, false)

/-! ## Phase state machine (final round-phase engine). -/

/-- The initialisation part of startPhaseTimerAndBroadcast: store the
phase key and the full duration in the room row. -/
def startPhaseTimerInit (phaseKey : Phase) (duration : Nat) (s : GState) :
    GState :=
  { s with room :=
      { s.room with roundPhase := phaseKey, roundRemainingTime := duration } }

/-- One firing of the ticker created by startPhaseTimerAndBroadcast for
phaseKey, with onEnd the transition callback: reload the room; when the
phase no longer matches, do nothing (stale no-op); when it matches and
the time is used up, run the transition; otherwise decrement the
remaining time. -/
def phaseTick (phaseKey : Phase) (onEnd : GState → GState) (s : GState) :
    GState :=
  if s.room.roundPhase ≠ phaseKey ∨ s.room.roundRemainingTime = 0 then
    if s.room.roundPhase = phaseKey then onEnd s else s
  else
    { s with room :=
        { s.room with roundRemainingTime := s.room.roundRemainingTime - 1 } }

/-- The state mutation of selectDrawerAndStartWordChoice (final
variant): run the selection core over the active participants, clear
every old isDrawer flag, set the winner's isDrawer and hasDrawn,
store pointer / currentDrawerId / drawnUserIds / word options, and
enter the selecting_drawer phase.  themedResult and shuffledFallback
are the environment inputs of the word-option computation. -/
def selectDrawerStep (themedResult : Option String)
    (shuffledFallback : List String) (s : GState) : GState :=
  let active := s.participants.filter (fun p => p.isActive)
  match selectDrawerCore s.room.gameMode active s.room.drawerPointerIndex
      s.room.drawnUserIds with
  | none => s
  | some r =>
    let ps1 := s.participants.map (fun p =>
      if p.isDrawer then { p with isDrawer := false } else p)
    let ps2 := ps1.map (fun p =>
      if p.userId = r.drawer.userId then
        { p with isDrawer := true, hasDrawn := true }
      else p)
    let words := computeWordOptions s.room.themeId.isSome themedResult
      shuffledFallback
    let room1 := { s.room with
      drawerPointerIndex := r.pointer,
      currentDrawerId := some r.drawer.userId,
      currentWord := none,
      currentWordOptions := some words,
      drawnUserIds := r.drawnUserIds }
    startPhaseTimerInit Phase.selecting_drawer PHASE_DURATIONS_selecting_drawer
      { s with room := room1, participants := ps2 }

/-- startNewRound: require at least two active participants, reset
hasGuessedThisRound and isDrawer on every participant row of the room,
then select the next drawer. -/
def startNewRoundStep (themedResult : Option String)
    (shuffledFallback : List String) (s : GState) : GState :=
  if countP s.participants (fun p => p.isActive) < 2 then s
  else
    let ps1 := s.participants.map (fun p =>
      { p with hasGuessedThisRound := false, isDrawer := false })
    selectDrawerStep themedResult shuffledFallback { s with participants := ps1 }

/-- The transition scheduled for the end of selecting_drawer
(startWordChoicePhase): enter the choosing_word phase. -/
def selectingOnEnd (s : GState) : GState :=
  startPhaseTimerInit Phase.choosing_word PHASE_DURATIONS_choosing_word s

/-- One firing of the selecting_drawer ticker. -/
def selectingTickStep (s : GState) : GState :=
  phaseTick Phase.selecting_drawer selectingOnEnd s

/-- The choosing_word timeout transition: the drawer (captured as
drawerUid) did not choose; clear the drawer flag and the round fields,
broadcast drawer_skipped, and run the rotation again (the pointer was
already advanced at selection time). -/
def choosingOnEnd (drawerUid : Nat) (themedResult : Option String)
    (shuffledFallback : List String) (s : GState) : GState :=
  let ps1 := s.participants.map (fun p =>
    if p.userId = drawerUid then { p with isDrawer := false } else p)
  let room1 := { s.room with
    currentDrawerId := none, currentWord := none,
    currentWordOptions := none, roundPhase := Phase.selecting_drawer }
  selectDrawerStep themedResult shuffledFallback
    { s with room := room1, participants := ps1 }

/-- One firing of the choosing_word ticker. -/
def choosingTickStep (drawerUid : Nat) (themedResult : Option String)
    (shuffledFallback : List String) (s : GState) : GState :=
  phaseTick Phase.choosing_word
    (choosingOnEnd drawerUid themedResult shuffledFallback) s

/-- endDrawingPhase: count the guessers, reward the drawer
min(guessedCount * 2, maxPointsPerRound) when anyone guessed, enter
the reveal phase, then check the win condition. -/
def endDrawingPhaseStep (s : GState) : GState :=
  let guessedCount := countP s.participants (fun p => p.hasGuessedThisRound)
  let drawerOpt :=
    match s.room.currentDrawerId with
    | none => none
    | some did => findParticipant s.participants did
  let ps1 :=
    match drawerOpt with
    | some d =>
      if 0 < guessedCount then
        s.participants.map (fun p =>
          if p.userId = d.userId then
            { p with score :=
                p.score + min (guessedCount * 2) s.room.maxPointsPerRound }
          else p)
      else s.participants
    | none => s.participants
  let s1 : GState :=
    { room := { s.room with roundPhase := Phase.reveal }, participants := ps1 }
  (checkGameEndStep s1).1

/-- One firing of the drawing countdown ticker of startDrawingPhase:
reload; when the phase left drawing, do nothing; when the time is used
up in the drawing phase, end the drawing phase; otherwise decrement. -/
def drawingTickStep (s : GState) : GState :=
  if s.room.roundPhase ≠ Phase.drawing ∨ s.room.roundRemainingTime = 0 then
    if s.room.roundPhase = Phase.drawing then endDrawingPhaseStep s else s
  else
    { s with room :=
        { s.room with roundRemainingTime := s.room.roundRemainingTime - 1 } }

/-- startIntervalPhase (final variant), which is the body of the
timeout endDrawingPhase schedules at the end of reveal: reload the
room and unconditionally enter the interval phase.  There is no check
that the phase is still reveal. -/
def startIntervalPhaseStep (s : GState) : GState :=
  startPhaseTimerInit Phase.interval PHASE_DURATIONS_interval s

/-- The interval ticker's transition: increment currentRound and start
the next round. -/
def intervalOnEnd (themedResult : Option String)
    (shuffledFallback : List String) (s : GState) : GState :=
  startNewRoundStep themedResult shuffledFallback
    { s with room := { s.room with currentRound := s.room.currentRound + 1 } }

/-- One firing of the interval ticker. -/
def intervalTickStep (themedResult : Option String)
    (shuffledFallback : List String) (s : GState) : GState :=
  phaseTick Phase.interval (intervalOnEnd themedResult shuffledFallback) s

/-- handleDrawerLeave: when the leaving user is the current drawer and
the phase is drawing, clear the drawing timer and the round fields and
enter the interval phase directly (the word is never revealed). -/
def handleDrawerLeaveStep (uid : Nat) (s : GState) : GState :=
  if s.room.currentDrawerId ≠ some uid ∨ s.room.roundPhase ≠ Phase.drawing then
    s
  else
    let room1 := { s.room with
      currentDrawerId := none, currentWord := none,
      currentWordOptions := none }
    startPhaseTimerInit Phase.interval PHASE_DURATIONS_interval
      { s with room := room1 }

/-! ## socket.js handlers -/

/-- JavaScript includes on a currentWordOptions value: substring
containment when the stored value is a single string, membership when
it is an array. -/
def jsIncludes (jw : JsWords) (w : String) : Bool :=
  match jw with
  | .jsNull => false
  | .jsStr s => decide (w.data <:+: s.data)
  | .jsArr l => l.contains w

/-- The choose_word handler: only the current drawer, only in the
choosing_word phase, only a word contained in the delivered options;
then store the word, drop the options and start the drawing phase. -/
def chooseWordStep (uid : Nat) (w : String) (s : GState) : GState :=
  if s.room.currentDrawerId ≠ some uid then s
  else if s.room.roundPhase ≠ Phase.choosing_word then s
  else
    let optionsOk :=
      match s.room.currentWordOptions with
      | none => false
      | some jw => !jw.falsy && jsIncludes jw w
    if !optionsOk then s
    else
      { s with room := { s.room with
          currentWord := some w, currentWordOptions := none,
          roundPhase := Phase.drawing,
          roundRemainingTime := PHASE_DURATIONS_drawing } }

/-- The whitespace trim of JavaScript String.prototype.trim, over the
character list of the string. -/
def trimChars (l : List Char) : List Char :=
  ((l.dropWhile Char.isWhitespace).reverse.dropWhile Char.isWhitespace).reverse

/-- The normalisation applied to both the guess and the stored word:
(x || "").toString().trim().toLowerCase(). -/
def normalizeGuess (g : String) : String :=
  String.mk ((trimChars g.data).map Char.toLower)

/-- Outcome of one submit_guess command. -/
inductive GuessOutcome
  | rejected (message : String)
  | incorrect
  | correct (reward : Nat) (earlyEnd : Bool)
  deriving DecidableEq, Repr

/-- The participant rows after a correct guess: team mode awards the
reward to every active member of the guesser's team, flat mode to the
guesser alone; then the guesser's hasGuessedThisRound is set. -/
def guessScoredParticipants (s : GState) (uid : Nat)
    (guesserTeam : Option String) (reward : Nat) : List Participant :=
  let ps1 :=
    if s.room.gameMode = "team_vs_team" then
      s.participants.map (fun p =>
        if p.team == guesserTeam && p.isActive then
          { p with score := p.score + reward }
        else p)
    else
      s.participants.map (fun p =>
        if p.userId = uid then { p with score := p.score + reward } else p)
  ps1.map (fun p =>
    if p.userId = uid then { p with hasGuessedThisRound := true } else p)

/-- The room row after the time compression of a correct guess:
activePlayers counts the active non-drawer participants (with no team
restriction), and when it is positive the remaining time drops by
Math.floor(remaining / activePlayers), clamped at 0. -/
def guessUpdatedRoom (s : GState) (ps2 : List Participant) : Room :=
  let activePlayers := countP ps2 (fun p => p.isActive && !p.isDrawer)
  if 0 < activePlayers then
    { s.room with roundRemainingTime :=
        (s.room.roundRemainingTime -
          calculateTimeReduction s.room.roundRemainingTime activePlayers) }
  else s.room

/-- The early round-end test after a correct guess:
guessedCount >= eligibleCount, with eligibleCount scoped to the
guesser's team in team mode. -/
def guessEarlyEnd (s : GState) (guesserTeam : Option String)
    (ps2 : List Participant) : Bool :=
  let eligibleCount :=
    if s.room.gameMode = "team_vs_team" then
      countP ps2 (fun p => p.isActive && !p.isDrawer && p.team == guesserTeam)
    else
      countP ps2 (fun p => p.isActive && !p.isDrawer)
  let guessedCount := countP ps2 (fun p => p.isActive && p.hasGuessedThisRound)
  decide (eligibleCount ≤ guessedCount)

/-- The team-match guard of team_vs_team mode: the guess fails the
check when the drawer row cannot be found or the guesser's team
differs from the drawer's team. -/
def guessTeamFail (s : GState) (part : Participant) : Bool :=
  if s.room.gameMode = "team_vs_team" then
    match s.room.currentDrawerId with
    | none => true
    | some did =>
      match findParticipant s.participants did with
      | none => true
      | some drawer => part.team ≠ drawer.team
  else false

/-- The submit_guess handler for an authenticated user uid, guessing
the string g, mirroring socket.js: phase and word guards, participant
lookup, drawer / already-guessed guards, the team-match guard of
team_vs_team mode, then on a correct guess the reward (computed from
the remaining time at the moment of the guess), team or individual
score update, hasGuessedThisRound mark, time compression over the
count of all active non-drawer participants, and the early round-end
test guessedCount >= eligibleCount.  The early end itself
(endDrawingPhase) is applied by submitGuessFullStep. -/
def submitGuessStep (uid : Nat) (g : String) (s : GState) :
    GuessOutcome × GState :=
  if s.room.roundPhase ≠ Phase.drawing then (.rejected "not_drawing_phase", s)
  else
    match s.room.currentWord with
    | none => (.rejected "no_active_word", s)
    | some cw =>
      match findParticipant s.participants uid with
      | none => (.rejected "not_in_room", s)
      | some participant =>
        if participant.isDrawer then (.rejected "drawer_cannot_guess", s)
        else if participant.hasGuessedThisRound then
          (.rejected "already_guessed", s)
        else
          if guessTeamFail s participant then (.rejected "wrong_team", s)
          else if normalizeGuess g ≠ normalizeGuess cw then (.incorrect, s)
          else
            let reward := calculateGuessReward s.room.roundRemainingTime
              s.room.maxPointsPerRound
            let ps2 := guessScoredParticipants s uid participant.team reward
            (.correct reward (guessEarlyEnd s participant.team ps2),
              { s with room := guessUpdatedRoom s ps2, participants := ps2 })

/-- submit_guess including the early round end: when all eligible
players have guessed, the handler clears the drawing timer and calls
endDrawingPhase. -/
def submitGuessFullStep (uid : Nat) (g : String) (s : GState) : GState :=
  match submitGuessStep uid g s with
  | (.correct _ true, s1) => endDrawingPhaseStep s1
  | (_, s1) => s1

/-- The start_game handler: owner-only, from lobby or waiting status,
at least two active participants, both teams non-empty in
team_vs_team mode; deduct the entry fee (marking hasPaidEntry), set
the room playing at round 1 with a fresh rotation, and start the first
round. -/
def startGameStep (uid : Nat) (themedResult : Option String)
    (shuffledFallback : List String) (s : GState) : GState :=
  if s.room.ownerId ≠ uid then s
  else if s.room.status ≠ "lobby" ∧ s.room.status ≠ "waiting" then s
  else
    let active := s.participants.filter (fun p => p.isActive)
    if active.length < 2 then s
    else if s.room.gameMode = "team_vs_team" ∧
        ((active.filter (fun p => p.team == some "orange")).length = 0 ∨
          (active.filter (fun p => p.team == some "blue")).length = 0) then s
    else
      let ps1 := s.participants.map (fun p =>
        if p.isActive then { p with hasPaidEntry := true } else p)
      let room1 := { s.room with
        status := "playing", currentRound := 1, drawnUserIds := [] }
      startNewRoundStep themedResult shuffledFallback
        { s with room := room1, participants := ps1 }

/-- Outcome of one join_room command. -/
inductive JoinOutcome
  | roomFull
  | joined (isResuming : Bool) (isNew : Bool)
  deriving DecidableEq, Repr

/-- The participant row created when an authenticated user with no
existing record joins. -/
def newParticipant (uid : Nat) : Participant :=
  { defaultP with userId := uid, isActive := true }

/-- The join_room handler for an authenticated user uid (room already
found): a user with an existing inactive record is rejoining; the
room_full check (active count >= maxPlayers) runs only for
non-rejoining users; then an existing record is reactivated and a
missing one is created. -/
def joinRoomStep (uid : Nat) (s : GState) : JoinOutcome × GState :=
  let existing := findParticipant s.participants uid
  let isRejoining :=
    match existing with
    | some p => !p.isActive
    | none => false
  if !isRejoining && decide (s.room.maxPlayers ≤ countP s.participants (fun p => p.isActive)) then
    (.roomFull, s)
  else
    match existing with
    | some _ =>
      (.joined isRejoining false,
        { s with participants := s.participants.map (fun p =>
            if p.userId = uid then { p with isActive := true } else p) })
    | none =>
      (.joined false true,
        { s with participants := s.participants ++ [newParticipant uid] })

/-! ## Reachability -/

/-- One engine or handler step, as the events can occur at runtime:
commands arrive with arbitrary arguments and the scheduled timers
fire.  Every function encodes its own guards and is the identity when
its guards reject. -/
inductive Step : GState → GState → Prop
  | startGame (uid : Nat) (tr : Option String) (sf : List String)
      (s : GState) : Step s (startGameStep uid tr sf s)
  | selectingTick (s : GState) : Step s (selectingTickStep s)
  | choosingTick (uid : Nat) (tr : Option String) (sf : List String)
      (s : GState) : Step s (choosingTickStep uid tr sf s)
  | chooseWord (uid : Nat) (w : String) (s : GState) :
      Step s (chooseWordStep uid w s)
  | submitGuess (uid : Nat) (g : String) (s : GState) :
      Step s (submitGuessFullStep uid g s)
  | drawingTick (s : GState) : Step s (drawingTickStep s)
  | revealTimer (s : GState) : Step s (startIntervalPhaseStep s)
  | intervalTick (tr : Option String) (sf : List String) (s : GState) :
      Step s (intervalTickStep tr sf s)
  | drawerLeave (uid : Nat) (s : GState) : Step s (handleDrawerLeaveStep uid s)
  | joinRoom (uid : Nat) (s : GState) : Step s (joinRoomStep uid s).2

/-- Reflexive-transitive closure of the step relation. -/
def Reachable : GState → GState → Prop :=
  Relation.ReflTransGen Step

/-! ## Specification-side counting functions, for comparison with the
handler.  These two follow the specification's words, not the source:
the eligible-guesser count excludes the drawer and, in team mode, is
scoped to the drawer's own team. -/

/-- Eligible-guesser count as the specification defines it: active
non-drawer participants, restricted to the drawer's team in
team_vs_team mode. -/
def specEligibleCount (gameMode : String) (drawerTeam : Option String)
    (ps : List Participant) : Nat :=
  if gameMode = "team_vs_team" then
    countP ps (fun p => p.isActive && !p.isDrawer && p.team == drawerTeam)
  else
    countP ps (fun p => p.isActive && !p.isDrawer)

/-- The specification's time-compression formula with a team-scoped
guesser count: max(0, r - floor(r / teamScopedCount)). -/
def specTeamScopedRemaining (r teamScopedCount : Nat) : Nat :=
  r - r / teamScopedCount

/-! ## Concrete states used by counterexamples and witnesses. -/

/-- A two-player free-for-all room in the lobby. -/
def cexRoom0 : Room :=
  { gameMode := "1v1", status := "lobby", roundPhase := Phase.noPhase,
    roundRemainingTime := 0, currentRound := 0, currentDrawerId := none,
    currentWord := none, currentWordOptions := none, drawerPointerIndex := 0,
    drawnUserIds := [], targetPoints := 1000, maxPointsPerRound := 10,
    entryPoints := 250, maxPlayers := 8, ownerId := 1, themeId := none }

/-- Player 1 (the owner). -/
def cexP1 : Participant := { defaultP with userId := 1, isActive := true }

/-- Player 2. -/
def cexP2 : Participant := { defaultP with userId := 2, isActive := true }

/-- Initial lobby state: two active players, nobody a drawer. -/
def cexS0 : GState := { room := cexRoom0, participants := [cexP1, cexP2] }

/-- After the owner starts the game: playing, round 1, player 1
selected as drawer, selecting_drawer phase. -/
def cexS1 : GState := startGameStep 1 none fallbackWords cexS0

/-- After the selecting_drawer ticker fires six times (five decrements
and the transition): choosing_word phase. -/
def cexS2 : GState := selectingTickStep^[6] cexS1

/-- After the drawer chooses the word apple: drawing phase, 80
seconds. -/
def cexS3 : GState := chooseWordStep 1 "apple" cexS2

/-- After player 2 guesses correctly: the only eligible guesser has
guessed, so the round ends early and the room is in the reveal
phase. -/
def cexS4 : GState := submitGuessFullStep 2 "  Apple " cexS3

/-- Team-mode drawing state: drawer 1 (blue), team-mate 2 (blue),
opponents 3 and 4 (orange), word apple, 60 seconds remaining. -/
def cexTeamRoom : Room :=
  { cexRoom0 with
    gameMode := "team_vs_team"
    roundPhase := Phase.drawing
    currentWord := some "apple"
    currentDrawerId := some 1
    roundRemainingTime := 60 }

/-- Blue drawer. -/
def cexQ1 : Participant :=
  { defaultP with
    userId := 1
    isActive := true
    team := some "blue"
    isDrawer := true }

/-- Blue guesser. -/
def cexQ2 : Participant :=
  { defaultP with userId := 2, isActive := true, team := some "blue" }

/-- Orange player 3. -/
def cexQ3 : Participant :=
  { defaultP with userId := 3, isActive := true, team := some "orange" }

/-- Orange player 4. -/
def cexQ4 : Participant :=
  { defaultP with userId := 4, isActive := true, team := some "orange" }

/-- The team-mode drawing state for the time-compression
counterexample. -/
def cexTeamS : GState :=
  { room := cexTeamRoom, participants := [cexQ1, cexQ2, cexQ3, cexQ4] }

/-- A three-player flat room in the drawing phase with 70 seconds
remaining: drawer 1 and eligible guessers 2 and 3. -/
def witRoom70 : Room :=
  { cexRoom0 with
    roundPhase := Phase.drawing
    currentWord := some "apple"
    currentDrawerId := some 1
    roundRemainingTime := 70 }

/-- Flat-mode drawer for the 70-second example. -/
def witP1 : Participant :=
  { defaultP with userId := 1, isActive := true, isDrawer := true }

/-- The 70-seconds-remaining state with two eligible guessers. -/
def witS70 : GState :=
  { room := witRoom70,
    participants := [witP1, cexP2, { defaultP with userId := 3, isActive := true }] }

/-- A full room (two active players, maxPlayers 2). -/
def cexJoinRoomFull : GState :=
  { room := { cexRoom0 with maxPlayers := 2 }, participants := [cexP1, cexP2] }

/-- A full room in which user 2's record is inactive: two other active
players fill maxPlayers 2. -/
def witJoinRejoin : GState :=
  { room := { cexRoom0 with maxPlayers := 2 },
    participants := [cexP1, { cexP2 with isActive := false },
      { defaultP with userId := 3, isActive := true }] }

/-- An English roman translation row. -/
def cexTr (w : String) : Translation :=
  { languageId := 1, scriptType := "roman", translatedText := w }

/-- A theme keyword with a single English roman translation. -/
def cexKw (w : String) : Keyword :=
  { translations := [cexTr w] }

/-- Three keywords resolving to apple, banana, cat. -/
def cexKeywords : List Keyword :=
  [cexKw "apple", cexKw "banana", cexKw "cat"]

/-- Default rank entry for list indexing. -/
def defRank : RankEntry :=
  { place := 0, userId := 0, score := 0, coinsAwarded := 0 }

/-- Default ledger row for list indexing. -/
def defTx : LedgerTx :=
  { userId := 0, amount := 0, reason := "" }

/-- Four players with scores 5, 9, 2 and 7, for the payout witness. -/
def cexPayPs : List Participant :=
  [{ defaultP with userId := 1, score := 5 },
   { defaultP with userId := 2, score := 9 },
   { defaultP with userId := 3, score := 2 },
   { defaultP with userId := 4, score := 7 }]

/-- Eligibility of walk position k: the candidate at
alternatingList[(k) % length] has not yet drawn this cycle. -/
def eligibleAt (alt : List Participant) (drawn : List Nat) (k : Nat) : Prop :=
  (alt.getD (k % alt.length) defaultP).userId ∉ drawn

instance (alt : List Participant) (drawn : List Nat) (k : Nat) :
    Decidable (eligibleAt alt drawn k) :=
  inferInstanceAs (Decidable (_ ∉ _))

/-! # Theorems -/

/-- Inversion of a successful submit_guess: the guards passed, the
reward is computed from the remaining time at the moment of the
guess, and the resulting state and the early-end flag have the shape
of the correct branch.  In team mode the guesser's team equals the
drawer's team (the wrong_team guard passed). -/
lemma submitGuess_correct_shape {uid : Nat} {g : String} {s : GState}
    {rw : Nat} {e : Bool} {s' : GState}
    (h : submitGuessStep uid g s = (GuessOutcome.correct rw e, s')) :
    ∃ part, findParticipant s.participants uid = some part ∧
      part.isDrawer = false ∧ part.hasGuessedThisRound = false ∧
      s.room.roundPhase = Phase.drawing ∧
      rw = calculateGuessReward s.room.roundRemainingTime
        s.room.maxPointsPerRound ∧
      s' = { room := guessUpdatedRoom s
               (guessScoredParticipants s uid part.team rw),
             participants := guessScoredParticipants s uid part.team rw } ∧
      e = guessEarlyEnd s part.team
        (guessScoredParticipants s uid part.team rw) ∧
      (s.room.gameMode = "team_vs_team" →
        ∀ did drawer, s.room.currentDrawerId = some did →
          findParticipant s.participants did = some drawer →
          part.team = drawer.team) := by
  unfold submitGuessStep at h
  split at h
  · exact absurd h (by simp)
  next hphase =>
    split at h
    · exact absurd h (by simp)
    next cw hcw =>
      split at h
      · exact absurd h (by simp)
      next part hpart =>
        split at h
        · exact absurd h (by simp)
        next hnd =>
          split at h
          · exact absurd h (by simp)
          next hng =>
            split at h
            · exact absurd h (by simp)
            next hteamF =>
              split at h
              · exact absurd h (by simp)
              next hguess =>
                simp only [Prod.mk.injEq, GuessOutcome.correct.injEq] at h
                obtain ⟨⟨hrw, he⟩, hs⟩ := h
                subst hrw
                refine ⟨part, hpart, by simpa using hnd, by simpa using hng,
                  not_not.1 hphase, rfl, hs.symm, he.symm, ?_⟩
                intro hmode did drawer hdid hdrawer
                simp [guessTeamFail, hmode, hdid, hdrawer] at hteamF
                exact hteamF

/-- C7: on every correct guess the points awarded equal
min(ceil(remainingSeconds / 8), maxPointsPerRound), computed from the
remaining time at the moment of the guess.  (r + 7) / 8 is the exact
natural ceiling of r / 8, as the two bounding conjuncts pin down, and
the spec's examples hold: 64 seconds with cap 10 give 8 points, 5
seconds with cap 10 give 1 point. -/
theorem claim7_guess_reward (s : GState) (uid : Nat) (g : String)
    (rw : Nat) (e : Bool) (s' : GState)
    (h : submitGuessStep uid g s = (GuessOutcome.correct rw e, s')) :
    rw = min ((s.room.roundRemainingTime + 7) / 8) s.room.maxPointsPerRound ∧
    s.room.roundRemainingTime ≤ 8 * ((s.room.roundRemainingTime + 7) / 8) ∧
    8 * ((s.room.roundRemainingTime + 7) / 8) < s.room.roundRemainingTime + 8 ∧
    calculateGuessReward 64 10 = 8 ∧ calculateGuessReward 5 10 = 1 := by
  obtain ⟨part, -, -, -, -, hrw, -, -, -⟩ := submitGuess_correct_shape h
  refine ⟨hrw, ?_, ?_, by decide, by decide⟩ <;>
  · have hdm := Nat.div_add_mod (s.room.roundRemainingTime + 7) 8
    have hlt := Nat.mod_lt (s.room.roundRemainingTime + 7)
      (show 0 < 8 by decide)
    omega

/-- Witness for C7 at a concrete correct guess: 70 seconds remaining
and cap 10 give ceil(70 / 8) = 9 points. -/
theorem claim7_witness :
    9 = min ((witS70.room.roundRemainingTime + 7) / 8)
        witS70.room.maxPointsPerRound ∧
    witS70.room.roundRemainingTime ≤
      8 * ((witS70.room.roundRemainingTime + 7) / 8) ∧
    8 * ((witS70.room.roundRemainingTime + 7) / 8) <
      witS70.room.roundRemainingTime + 8 ∧
    calculateGuessReward 64 10 = 8 ∧ calculateGuessReward 5 10 = 1 :=
  claim7_guess_reward witS70 2 "apple" 9 false
    (submitGuessStep 2 "apple" witS70).2 (by decide)

/-- C6 (amended): on every correct guess the remaining time becomes
max(0, r - floor(r / c)) where r is the remaining time at the moment
of the guess and c is the count of ALL active non-drawer participants
of the room after the update, with no team scoping (natural
subtraction is the max-0 clamp). -/
theorem claim6_time_compression (s : GState) (uid : Nat) (g : String)
    (rw : Nat) (e : Bool) (s' : GState)
    (h : submitGuessStep uid g s = (GuessOutcome.correct rw e, s')) :
    s'.room.roundRemainingTime =
      (if 0 < countP s'.participants (fun p => p.isActive && !p.isDrawer) then
        s.room.roundRemainingTime -
          s.room.roundRemainingTime /
            countP s'.participants (fun p => p.isActive && !p.isDrawer)
      else s.room.roundRemainingTime) := by
  obtain ⟨part, -, -, -, -, -, hs', -, -⟩ := submitGuess_correct_shape h
  subst hs'
  simp only [guessUpdatedRoom, calculateTimeReduction]
  split
  · rfl
  · rfl

/-- Witness for C6: the spec's example, 70 seconds remaining with two
eligible guessers, leaves 35 seconds. -/
theorem claim6_witness :
    (submitGuessStep 2 "apple" witS70).2.room.roundRemainingTime =
      (if 0 < countP (submitGuessStep 2 "apple" witS70).2.participants
            (fun p => p.isActive && !p.isDrawer) then
        witS70.room.roundRemainingTime -
          witS70.room.roundRemainingTime /
            countP (submitGuessStep 2 "apple" witS70).2.participants
              (fun p => p.isActive && !p.isDrawer)
      else witS70.room.roundRemainingTime) :=
  claim6_time_compression witS70 2 "apple" 9 false
    (submitGuessStep 2 "apple" witS70).2 (by decide)

/-- C6 counterexample: in team mode, drawer 1 and guesser 2 on blue
with two orange opponents and 60 seconds remaining, the correct guess
leaves 60 - 60 / 3 = 40 seconds (the divisor counts all three active
non-drawers), while the claim's team-scoped divisor (1) would leave
max(0, 60 - 60) = 0. -/
theorem claim6_counterexample :
    cexTeamS.room.gameMode = "team_vs_team" ∧
    (submitGuessStep 2 "apple" cexTeamS).1 = GuessOutcome.correct 8 true ∧
    specEligibleCount "team_vs_team" (some "blue")
      (submitGuessStep 2 "apple" cexTeamS).2.participants = 1 ∧
    (submitGuessStep 2 "apple" cexTeamS).2.room.roundRemainingTime = 40 ∧
    specTeamScopedRemaining cexTeamS.room.roundRemainingTime
      (specEligibleCount "team_vs_team" (some "blue")
        (submitGuessStep 2 "apple" cexTeamS).2.participants) = 0 ∧
    (submitGuessStep 2 "apple" cexTeamS).2.room.roundRemainingTime ≠
      specTeamScopedRemaining cexTeamS.room.roundRemainingTime
        (specEligibleCount "team_vs_team" (some "blue")
          (submitGuessStep 2 "apple" cexTeamS).2.participants) := by
  decide

/-- C1 (amended): every ticker created through
startPhaseTimerAndBroadcast reloads the room and is a strict no-op
when the phase no longer equals the phase it was scheduled for, and so
is the drawing countdown ticker; but the reveal-to-interval timeout
(startIntervalPhase) performs no such check: fired on a room that has
moved on (here: one back in the drawing phase), it still mutates the
state, unconditionally entering the interval phase. -/
theorem claim1_stale_guard :
    (∀ (key : Phase) (onEnd : GState → GState) (s : GState),
        s.room.roundPhase ≠ key → phaseTick key onEnd s = s) ∧
    (∀ s : GState, s.room.roundPhase ≠ Phase.drawing →
        drawingTickStep s = s) ∧
    (cexS3.room.roundPhase ≠ Phase.reveal ∧
      startIntervalPhaseStep cexS3 ≠ cexS3 ∧
      (startIntervalPhaseStep cexS3).room.roundPhase = Phase.interval) := by
  refine ⟨?_, ?_, by decide, by decide, by decide⟩
  · intro key onEnd s hne
    simp [phaseTick, hne]
  · intro s hne
    simp [drawingTickStep, hne]

/-- Witness for C1 (amended), instantiating the stale-no-op guards at
concrete states whose phase differs from the scheduled one. -/
theorem claim1_witness :
    phaseTick Phase.drawing id cexS0 = cexS0 ∧
    drawingTickStep cexS4 = cexS4 :=
  ⟨claim1_stale_guard.1 Phase.drawing id cexS0 (by decide),
   claim1_stale_guard.2.1 cexS4 (by decide)⟩

/-- C10 (amended): a join_room from an authenticated user whose
participant record exists with isActive = false always succeeds as a
resume — the room_full check is skipped — and reactivates the record;
and in general the room_full rejection fires exactly for users WITHOUT
an inactive record (brand-new users, but also users whose record is
still active) when the active count has reached maxPlayers. -/
theorem claim10_rejoin_bypasses_room_full (s : GState) (uid : Nat)
    (p : Participant)
    (hfind : findParticipant s.participants uid = some p)
    (hinactive : p.isActive = false) :
    (joinRoomStep uid s).1 = JoinOutcome.joined true false ∧
    (∀ q ∈ (joinRoomStep uid s).2.participants,
      q.userId = uid → q.isActive = true) ∧
    (∀ t : GState, (joinRoomStep uid t).1 = JoinOutcome.roomFull ↔
      ((∀ q, findParticipant t.participants uid = some q →
          q.isActive = true) ∧
        t.room.maxPlayers ≤ countP t.participants (fun q => q.isActive))) := by
  refine ⟨?_, ?_, ?_⟩
  · simp [joinRoomStep, hfind, hinactive]
  · intro q hq huid
    simp only [joinRoomStep, hfind, hinactive] at hq
    simp only [Bool.not_false, Bool.true_and] at hq
    rcases List.mem_map.1 hq with ⟨q0, hq0, rfl⟩
    by_cases hq0id : q0.userId = uid
    · simp [hq0id]
    · rw [if_neg hq0id] at huid
      exact absurd huid hq0id
  · intro t
    unfold joinRoomStep
    cases hf : findParticipant t.participants uid with
    | none =>
      by_cases hc : t.room.maxPlayers ≤ countP t.participants (fun q => q.isActive)
      · simp [hf, hc]
      · simp [hf, hc]
    | some q =>
      cases hact : q.isActive with
      | true =>
        by_cases hc : t.room.maxPlayers ≤ countP t.participants (fun r => r.isActive)
        · simp [hf, hact, hc]
        · simp [hf, hact, hc]
      | false =>
        refine ⟨fun hout => ?_, fun hrhs => ?_⟩
        · simp [hf, hact] at hout
        · exact absurd (hrhs.1 q rfl) (by simp [hact])

/-- Witness for C10 (amended): user 2's record is inactive in a full
room (two other active players, maxPlayers 2), and the join still
succeeds as a resume. -/
theorem claim10_witness :
    (joinRoomStep 2 witJoinRejoin).1 = JoinOutcome.joined true false :=
  (claim10_rejoin_bypasses_room_full witJoinRejoin 2
    { cexP2 with isActive := false } (by decide) (by decide)).1

/-- C10 counterexample: user 1 already has a participant record in the
room (an active one) and the full room still answers room_full, so the
room_full rejection is not restricted to users with no existing
participant record. -/
theorem claim10_counterexample :
    findParticipant cexJoinRoomFull.participants 1 = some cexP1 ∧
    cexP1.isActive = true ∧
    (joinRoomStep 1 cexJoinRoomFull).1 = JoinOutcome.roomFull := by
  decide

/-- C8: the final selectDrawerAndStartWordChoice feeds its
three-options guard with getRandomWordForTheme, which returns ONE
word (a string), not a list: with a theme resolving the three words
apple, banana and cat, the lookup returns the single string apple,
the JavaScript test words.length < 3 measures the string's five
characters, the fallback is skipped, and word_options delivers the
single string apple instead of three words.  (The older flat-only
engine variant called getWordsForTheme(theme, lang, script, 3)
here, which does produce a three-element array.) -/
theorem claim8_single_string_options :
    resolvedWords 1 1 "en" "roman" cexKeywords = ["apple", "banana", "cat"] ∧
    getWordsForThemeResult (resolvedWords 1 1 "en" "roman" cexKeywords) 3 =
      ["apple", "banana", "cat"] ∧
    getRandomWordForTheme
      (getWordsForThemeResult (resolvedWords 1 1 "en" "roman" cexKeywords) 3) =
      some "apple" ∧
    computeWordOptions true (some "apple") fallbackWords =
      JsWords.jsStr "apple" ∧
    (¬ ∃ l : List String,
      computeWordOptions true (some "apple") fallbackWords =
        JsWords.jsArr l) ∧
    (computeWordOptions true (some "apple") fallbackWords).len = 5 ∧
    (computeWordOptions true (some "ox") fallbackWords).len = 3 := by
  refine ⟨by decide, by decide, by decide, by decide, ?_, by decide, by decide⟩
  rintro ⟨l, hl⟩
  rw [show computeWordOptions true (some "apple") fallbackWords =
    JsWords.jsStr "apple" from by decide] at hl
  exact JsWords.noConfusion hl

/-- C9: endGame moves the room status to finished, ranks participants
by descending score (a stable sort by the comparator
(a, b) => b.score - a.score), pays place 1 entryCost * 3, place 2
entryCost * 2, place 3 entryCost * 1 and every later place 0 (with
entryCost = entryPoints), and records one ledger credit per rewarded
place with the reason tag game_reward_place_N. -/
theorem claim9_payout (room : Room) (ps : List Participant) :
    (endGame room ps).1.status = "finished" ∧
    List.Sorted scoreGE (sortByScoreDesc ps) ∧
    ((endGame room ps).2.1).length = ps.length ∧
    (∀ i, i < ((endGame room ps).2.1).length →
      ((endGame room ps).2.1).getD i defRank =
        { place := i + 1,
          userId := ((sortByScoreDesc ps).getD i defaultP).userId,
          score := ((sortByScoreDesc ps).getD i defaultP).score,
          coinsAwarded :=
            if i = 0 then room.entryPoints * 3
            else if i = 1 then room.entryPoints * 2
            else if i = 2 then room.entryPoints * 1
            else 0 }) ∧
    ((endGame room ps).2.2).length = min 3 ps.length ∧
    (∀ i, i < ((endGame room ps).2.2).length →
      ((endGame room ps).2.2).getD i defTx =
        { userId := ((sortByScoreDesc ps).getD i defaultP).userId,
          amount :=
            if i = 0 then room.entryPoints * 3
            else if i = 1 then room.entryPoints * 2
            else room.entryPoints * 1,
          reason := "game_reward_place_" ++ toString (i + 1) }) := by
  have hsortlen : (sortByScoreDesc ps).length = ps.length :=
    (List.perm_insertionSort scoreGE ps).length_eq
  refine ⟨rfl, List.sorted_insertionSort scoreGE ps, ?_, ?_, ?_, ?_⟩
  · simp [endGame, endGameRankings, hsortlen]
  · intro i hi
    simp only [endGame, endGameRankings, calculateEntryCost,
      List.length_map, List.enum_length] at hi
    have hi' : i <
        ((sortByScoreDesc ps).enum.map (fun ip =>
          if ip.1 < 3 then
            ({ place := ip.1 + 1, userId := ip.2.userId, score := ip.2.score,
               coinsAwarded := room.entryPoints * (3 - ip.1) } : RankEntry)
          else
            { place := ip.1 + 1, userId := ip.2.userId, score := ip.2.score,
              coinsAwarded := 0 })).length := by
      simpa using hi
    simp only [endGame, endGameRankings, calculateEntryCost]
    rw [List.getD_eq_getElem _ _ hi']
    rw [List.getD_eq_getElem _ _ (show i < (sortByScoreDesc ps).length by
      simpa using hi)]
    simp only [List.getElem_map, List.enum, List.getElem_enumFrom,
      Nat.zero_add]
    rcases i with _ | _ | _ | n <;> simp
  · simp only [endGame, endGameTxs, calculateEntryCost, List.length_map,
      List.enum_length, List.length_take, hsortlen]
  · intro i hi
    simp only [endGame, endGameTxs, calculateEntryCost, List.length_map,
      List.enum_length, List.length_take] at hi
    have hi3 : i < 3 := lt_of_lt_of_le hi (Nat.min_le_left _ _)
    have hisort : i < (sortByScoreDesc ps).length :=
      lt_of_lt_of_le hi (Nat.min_le_right _ _)
    have hi' : i <
        (((sortByScoreDesc ps).take 3).enum.map (fun ip =>
          ({ userId := ip.2.userId, amount := room.entryPoints * (3 - ip.1),
             reason := "game_reward_place_" ++ toString (ip.1 + 1) } :
            LedgerTx))).length := by
      simpa using hi
    simp only [endGame, endGameTxs, calculateEntryCost]
    rw [List.getD_eq_getElem _ _ hi']
    rw [List.getD_eq_getElem _ _ hisort]
    simp only [List.getElem_map, List.enum, List.getElem_enumFrom,
      Nat.zero_add, List.getElem_take]
    rcases i with _ | _ | _ | n
    · simp_all
    · simp_all
    · simp_all
    · omega

/-- Witness for C9: entryPoints 250 with scores 9, 7, 5, 2 pays 750,
500, 250, 0 and records game_reward_place_1..3. -/
theorem claim9_witness :
    (endGame cexRoom0 cexPayPs).1.status = "finished" ∧
    ((endGame cexRoom0 cexPayPs).2.1).getD 0 defRank =
      { place := 1, userId := 2, score := 9, coinsAwarded := 750 } ∧
    ((endGame cexRoom0 cexPayPs).2.1).getD 1 defRank =
      { place := 2, userId := 4, score := 7, coinsAwarded := 500 } ∧
    ((endGame cexRoom0 cexPayPs).2.1).getD 2 defRank =
      { place := 3, userId := 1, score := 5, coinsAwarded := 250 } ∧
    ((endGame cexRoom0 cexPayPs).2.1).getD 3 defRank =
      { place := 4, userId := 3, score := 2, coinsAwarded := 0 } ∧
    ((endGame cexRoom0 cexPayPs).2.2).getD 0 defTx =
      { userId := 2, amount := 750, reason := "game_reward_place_1" } := by
  have h := claim9_payout cexRoom0 cexPayPs
  refine ⟨h.1, ?_, ?_, ?_, ?_, ?_⟩
  · exact (h.2.2.2.1 0 (by decide)).trans (by decide)
  · exact (h.2.2.2.1 1 (by decide)).trans (by decide)
  · exact (h.2.2.2.1 2 (by decide)).trans (by decide)
  · exact (h.2.2.2.1 3 (by decide)).trans (by decide)
  · exact (h.2.2.2.2.2 0 (by decide)).trans (by decide)

/-- Membership in the alternating interleaved sequence is membership
in one of the two team lists. -/
lemma mem_interleave {a : Participant} :
    ∀ (xs ys : List Participant), a ∈ interleave xs ys ↔ a ∈ xs ∨ a ∈ ys := by
  intro xs
  induction xs with
  | nil => intro ys; simp [interleave]
  | cons x xs ih =>
    intro ys
    cases ys with
    | nil => simp [interleave]
    | cons y ys =>
      simp only [interleave, List.mem_cons, ih]
      tauto

/-- The eligibility walk returns an element of the alternating
sequence whose userId is not among the drawn users. -/
lemma walkFrom_mem {alt : List Participant} {drawn : List Nat}
    {c : Participant} {p' : Nat} :
    ∀ {fuel pointer : Nat},
      walkFrom alt drawn pointer fuel = some (c, p') →
        c ∈ alt ∧ c.userId ∉ drawn := by
  intro fuel
  induction fuel with
  | zero => intro pointer h; exact absurd h (by simp [walkFrom])
  | succ fuel ih =>
    intro pointer h
    unfold walkFrom at h
    split at h
    · exact absurd h (by simp)
    next hlen =>
      split at h
      · exact ih h
      next hnot =>
        simp only [Option.some.injEq, Prod.mk.injEq] at h
        obtain ⟨hc, -⟩ := h
        subst hc
        have hlt : pointer % alt.length < alt.length :=
          Nat.mod_lt _ (Nat.pos_of_ne_zero hlen)
        rw [List.getD_eq_getElem _ _ hlt]
        rw [List.getD_eq_getElem _ _ hlt] at hnot
        exact ⟨List.getElem_mem _, hnot⟩

/-- Members of the alternating sequence lie in the sorted participant
list. -/
lemma altOf_subset {sorted : List Participant} {c : Participant}
    (h : c ∈ altOf sorted) : c ∈ sorted := by
  simp only [altOf, mem_interleave, blueOf, orangeOf,
    List.mem_insertionSort, List.mem_filter] at h
  rcases h with ⟨hc, -⟩ | ⟨hc, -⟩ <;> exact hc

/-- A successful drawer selection picks a member of the sorted active
participant list. -/
lemma selectDrawerCore_mem {gameMode : String} {active : List Participant}
    {pointer : Nat} {drawn : List Nat} {r : SelectResult}
    (h : selectDrawerCore gameMode active pointer drawn = some r) :
    r.drawer ∈ sortByUserId active := by
  unfold selectDrawerCore at h
  by_cases hne : sortByUserId active = []
  · rw [if_pos hne] at h
    exact absurd h (by simp)
  rw [if_neg hne] at h
  have hlen : 0 < (sortByUserId active).length := List.length_pos.2 hne
  have hflat : r = finishPick (flatPick (sortByUserId active) pointer drawn) →
      r.drawer ∈ sortByUserId active := by
    intro hr
    subst hr
    simp only [finishPick, flatPick]
    rw [List.getD_eq_getElem _ _ (Nat.mod_lt _ hlen)]
    exact List.getElem_mem _
  by_cases hmode : gameMode = "1v1"
  · rw [if_pos hmode] at h
    exact hflat (Option.some.injEq _ _ ▸ h).symm
  rw [if_neg hmode] at h
  by_cases hteams : blueOf (sortByUserId active) = [] ∨
      orangeOf (sortByUserId active) = []
  · rw [if_pos hteams] at h
    exact hflat (Option.some.injEq _ _ ▸ h).symm
  rw [if_neg hteams] at h
  unfold teamPick at h
  split at h
  next c p1 hwalk =>
    simp only [Option.map_some', Option.some.injEq] at h
    rw [← h]
    exact altOf_subset (walkFrom_mem hwalk).1
  next hwalk =>
    split at h
    · exact absurd h (by simp)
    next c hidx =>
      simp only [Option.map_some', Option.some.injEq] at h
      rw [← h]
      exact altOf_subset (List.getElem?_mem hidx)

/-- Marking the selected drawer in a list whose flags are all cleared
leaves exactly as many drawer flags as occurrences of the selected
userId. -/
lemma countP_mark (l : List Participant) (d : Nat)
    (hclear : ∀ p ∈ l, p.isDrawer = false) :
    countP (l.map (fun p =>
      if p.userId = d then { p with isDrawer := true, hasDrawn := true }
      else p)) (fun p => p.isDrawer) = (l.map Participant.userId).count d := by
  induction l with
  | nil => simp [countP]
  | cons p l ih =>
    have hp := hclear p (List.mem_cons_self _ _)
    have ihl := ih (fun q hq => hclear q (List.mem_cons_of_mem _ hq))
    by_cases hd : p.userId = d
    · simp [countP, List.count_cons, hd, hp, List.filter] at ihl ⊢
      omega
    · simp [countP, List.count_cons, hd, hp, List.filter, Ne.symm hd] at ihl ⊢
      omega

/-- States reached by iterating a step function are reachable. -/
lemma reachable_iterate (f : GState → GState) (hf : ∀ t, Step t (f t)) :
    ∀ (n : Nat) (s : GState), Reachable s (f^[n] s) := by
  intro n
  induction n with
  | zero => intro s; exact Relation.ReflTransGen.refl
  | succ n ih =>
    intro s
    rw [Function.iterate_succ_apply']
    exact Relation.ReflTransGen.tail (ih s) (hf _)

/-- C2 counterexample: a reachable reveal-phase state in which one
participant still has isDrawer = true.  From a two-player lobby:
start the game (player 1 becomes the drawer), let the
selecting_drawer ticker run out, choose the word, and let player 2
guess correctly; the round ends early into the reveal phase and
endDrawingPhase never clears the drawer flag — nor does the interval
transition. -/
theorem claim2_counterexample :
    Reachable cexS0 cexS4 ∧
    cexS4.room.roundPhase = Phase.reveal ∧
    countP cexS4.participants (fun p => p.isDrawer) = 1 ∧
    (startIntervalPhaseStep cexS4).room.roundPhase = Phase.interval ∧
    countP (startIntervalPhaseStep cexS4).participants
      (fun p => p.isDrawer) = 1 := by
  refine ⟨?_, by decide, by decide, by decide, by decide⟩
  have h01 : Reachable cexS0 cexS1 :=
    Relation.ReflTransGen.single (Step.startGame 1 none fallbackWords cexS0)
  have h12 : Reachable cexS1 cexS2 :=
    reachable_iterate selectingTickStep (fun t => Step.selectingTick t) 6 cexS1
  have h23 : Reachable cexS2 cexS3 :=
    Relation.ReflTransGen.single (Step.chooseWord 1 "apple" cexS2)
  have h34 : Reachable cexS3 cexS4 :=
    Relation.ReflTransGen.single (Step.submitGuess 2 "  Apple " cexS3)
  exact ((h01.trans h12).trans h23).trans h34

/-- C2 (amended): when drawer selection succeeds on a room whose
participants carry pairwise-distinct userIds, exactly one participant
has isDrawer = true afterwards, and the selection enters
selecting_drawer; this single flag then persists unchanged through
the reveal transition (endDrawingPhase), the interval transition
(startIntervalPhase) and a drawer leave (handleDrawerLeave) — none of
them touches any isDrawer flag, so the flag count stays one through
choosing_word, drawing, reveal and interval until the next round's
reset or a skip clears it. -/
theorem claim2_drawer_flag (s : GState) (tr : Option String)
    (sf : List String) (r : SelectResult)
    (hnodup : (s.participants.map Participant.userId).Nodup)
    (hsel : selectDrawerCore s.room.gameMode
      (s.participants.filter (fun p => p.isActive))
      s.room.drawerPointerIndex s.room.drawnUserIds = some r) :
    countP (selectDrawerStep tr sf s).participants
      (fun p => p.isDrawer) = 1 ∧
    (selectDrawerStep tr sf s).room.roundPhase = Phase.selecting_drawer ∧
    (∀ t : GState, (endDrawingPhaseStep t).participants.map
      (fun p => p.isDrawer) = t.participants.map (fun p => p.isDrawer)) ∧
    (∀ t : GState, (startIntervalPhaseStep t).participants =
      t.participants) ∧
    (∀ (uid : Nat) (t : GState),
      (handleDrawerLeaveStep uid t).participants = t.participants) := by
  refine ⟨?_, ?_, ?_, ?_, ?_⟩
  · simp only [selectDrawerStep, hsel, startPhaseTimerInit]
    have hclear : ∀ p ∈ s.participants.map (fun p =>
        if p.isDrawer then { p with isDrawer := false } else p),
        p.isDrawer = false := by
      intro p hp
      rcases List.mem_map.1 hp with ⟨q, -, rfl⟩
      by_cases hq : q.isDrawer <;> simp [hq]
    rw [countP_mark _ _ hclear]
    have hids : (s.participants.map (fun p =>
        if p.isDrawer then { p with isDrawer := false } else p)).map
          Participant.userId = s.participants.map Participant.userId := by
      rw [List.map_map]
      apply List.map_congr_left
      intro p hp
      by_cases hq : p.isDrawer <;> simp [hq]
    rw [hids]
    apply List.count_eq_one_of_mem hnodup
    have hmem := selectDrawerCore_mem hsel
    rw [sortByUserId, List.mem_insertionSort] at hmem
    exact List.mem_map_of_mem _ (List.mem_filter.1 hmem).1
  · simp only [selectDrawerStep, hsel, startPhaseTimerInit]
  · intro t
    have hcheck : ∀ u : GState, (checkGameEndStep u).1.participants =
        u.participants := by
      intro u
      unfold checkGameEndStep
      rcases hfind : List.find? (fun p => decide (u.room.targetPoints ≤ p.score))
          (sortByScoreDesc (u.participants.filter (fun p => p.isActive)))
        with _ | w
      · simp [hfind]
      · simp [hfind]
    unfold endDrawingPhaseStep
    simp only [hcheck]
    rcases hopt : (match t.room.currentDrawerId with
      | none => none
      | some did => findParticipant t.participants did) with _ | d
    · rw [hopt]
    · rw [hopt]
      by_cases hg : 0 < countP t.participants (fun p => p.hasGuessedThisRound)
      · simp only [hg, if_true, List.map_map]
        apply List.map_congr_left
        intro p hp
        by_cases hq : p.userId = d.userId <;> simp [hq]
      · simp only [hg, if_false]
  · intro t
    rfl
  · intro uid t
    unfold handleDrawerLeaveStep
    split
    · rfl
    · rfl

/-- Witness for C2 (amended): a concrete two-player playing room in
which selection succeeds and exactly one drawer flag results. -/
theorem claim2_witness :
    countP (selectDrawerStep none fallbackWords
      { room := { cexRoom0 with status := "playing" },
        participants := [cexP1, cexP2] }).participants
      (fun p => p.isDrawer) = 1 :=
  (claim2_drawer_flag
    { room := { cexRoom0 with status := "playing" },
      participants := [cexP1, cexP2] } none fallbackWords
    { drawer := cexP1, pointer := 1, drawnUserIds := [1] }
    (by decide) (by decide)).1

/-- The flat selection trace has one pick per step. -/
lemma flatSelectionList_length (sorted : List Participant) :
    ∀ (k p : Nat), (flatSelectionList sorted p k).length = k := by
  intro k
  induction k with
  | zero => intro p; rfl
  | succ k ih => intro p; simp [flatSelectionList, ih]

/-- The i-th flat pick starting from pointer p is
sorted[(p + i) % n]. -/
lemma flatSelectionList_getD (sorted : List Participant) :
    ∀ (k i p : Nat), i < k →
      (flatSelectionList sorted p k).getD i defaultP =
        sorted.getD ((p + i) % sorted.length) defaultP := by
  intro k
  induction k with
  | zero => intro i p hik; omega
  | succ k ih =>
    intro i p hik
    cases i with
    | zero =>
      simp [flatSelectionList]
    | succ j =>
      have hrec := ih j ((p % sorted.length + 1) % sorted.length) (by omega)
      simp only [flatSelectionList, List.getD_cons_succ, hrec]
      congr 1
      rw [Nat.mod_add_mod, Nat.add_assoc, Nat.mod_add_mod]
      congr 1
      omega

/-- Starting inside the range, n consecutive flat picks are exactly
the rotation of the sorted list by the pointer. -/
lemma flatSelectionList_rotate (sorted : List Participant)
    (hn : 0 < sorted.length) (p : Nat) (hp : p < sorted.length) :
    flatSelectionList sorted p sorted.length = sorted.rotate p := by
  apply List.ext_getElem
  · rw [flatSelectionList_length, List.length_rotate]
  · intro i h1 h2
    have hi : i < sorted.length := by
      rwa [flatSelectionList_length] at h1
    have hD := flatSelectionList_getD sorted sorted.length i p hi
    rw [List.getD_eq_getElem _ _ h1,
      List.getD_eq_getElem _ _ (Nat.mod_lt _ hn)] at hD
    rw [hD, List.getElem_rotate]
    rw [Nat.add_comm i p]

/-- The flat trace only depends on the pointer modulo the count. -/
lemma flatSelectionList_mod (sorted : List Participant) (p k : Nat) :
    flatSelectionList sorted p k =
      flatSelectionList sorted (p % sorted.length) k := by
  cases k with
  | zero => rfl
  | succ k =>
    simp only [flatSelectionList, Nat.mod_mod_of_dvd _ dvd_rfl]

/-- C4: in flat (1v1) mode the selection picks
sorted[pointer % n] from the userId-sorted active participants and
advances the pointer to (pointer % n + 1) % n; consequently any n
consecutive selections over an unchanged active set form a
permutation of the participants — with distinct participants, each is
selected exactly once before any repeat. -/
theorem claim4_flat_rotation (active : List Participant) (pointer : Nat)
    (drawn : List Nat) (r : SelectResult)
    (hsel : selectDrawerCore "1v1" active pointer drawn = some r) :
    (r.drawer = (sortByUserId active).getD
        (pointer % (sortByUserId active).length) defaultP ∧
      r.pointer = (pointer % (sortByUserId active).length + 1) %
        (sortByUserId active).length) ∧
    List.Sorted userLE (sortByUserId active) ∧
    flatSelectionList (sortByUserId active) pointer 1 = [r.drawer] ∧
    (flatSelectionList (sortByUserId active) pointer
      (sortByUserId active).length).Perm (sortByUserId active) ∧
    ((sortByUserId active).Nodup →
      ∀ x ∈ sortByUserId active,
        (flatSelectionList (sortByUserId active) pointer
          (sortByUserId active).length).count x = 1) := by
  unfold selectDrawerCore at hsel
  by_cases hne : sortByUserId active = []
  · rw [if_pos hne] at hsel
    exact absurd hsel (by simp)
  rw [if_neg hne, if_pos rfl, Option.some.injEq] at hsel
  have hn : 0 < (sortByUserId active).length := List.length_pos.2 hne
  have hshape : r.drawer = (sortByUserId active).getD
      (pointer % (sortByUserId active).length) defaultP ∧
      r.pointer = (pointer % (sortByUserId active).length + 1) %
        (sortByUserId active).length := by
    rw [← hsel]
    exact ⟨rfl, rfl⟩
  have hperm : (flatSelectionList (sortByUserId active) pointer
      (sortByUserId active).length).Perm (sortByUserId active) := by
    rw [flatSelectionList_mod, flatSelectionList_rotate _ hn _
      (Nat.mod_lt _ hn)]
    exact List.rotate_perm _ _
  refine ⟨hshape, List.sorted_insertionSort userLE active, ?_, hperm, ?_⟩
  · simp [flatSelectionList, hshape.1]
  · intro hnodup x hx
    rw [hperm.count_eq]
    exact List.count_eq_one_of_mem hnodup hx

/-- Witness for C4: two sorted players, pointer 0; the two-step trace
visits both players, each exactly once. -/
theorem claim4_witness :
    (flatSelectionList (sortByUserId [cexP1, cexP2]) 0
      (sortByUserId [cexP1, cexP2]).length).Perm
      (sortByUserId [cexP1, cexP2]) ∧
    (flatSelectionList (sortByUserId [cexP1, cexP2]) 0
      (sortByUserId [cexP1, cexP2]).length).count cexP1 = 1 :=
  ⟨(claim4_flat_rotation [cexP1, cexP2] 0 []
      { drawer := cexP1, pointer := 1, drawnUserIds := [1] }
      (by decide)).2.2.2.1,
   (claim4_flat_rotation [cexP1, cexP2] 0 []
      { drawer := cexP1, pointer := 1, drawnUserIds := [1] }
      (by decide)).2.2.2.2 (by decide) cexP1 (by decide)⟩

/-- The walk returns the first eligible candidate: if offset i is
eligible and all earlier offsets are not, the walk from the pointer
lands on position (pointer + i) % length and advances the pointer just
past it. -/
lemma walkFrom_found {alt : List Participant} {drawn : List Nat}
    (hL : alt.length ≠ 0) :
    ∀ (i fuel pointer : Nat), i < fuel →
      eligibleAt alt drawn (pointer + i) →
      (∀ j < i, ¬ eligibleAt alt drawn (pointer + j)) →
      walkFrom alt drawn pointer fuel =
        some (alt.getD ((pointer + i) % alt.length) defaultP,
          ((pointer + i) % alt.length + 1) % alt.length) := by
  intro i
  induction i with
  | zero =>
    intro fuel pointer hif helig hmin
    cases fuel with
    | zero => omega
    | succ f =>
      unfold walkFrom
      rw [if_neg hL]
      rw [if_neg (by simpa [eligibleAt] using helig)]
      simp
  | succ j ih =>
    intro fuel pointer hif helig hmin
    cases fuel with
    | zero => omega
    | succ f =>
      have h0 : ¬ eligibleAt alt drawn (pointer + 0) := hmin 0 (by omega)
      unfold walkFrom
      rw [if_neg hL]
      rw [if_pos (by simpa [eligibleAt] using h0)]
      have hrec := ih f (pointer + 1) (by omega)
        (by rw [show pointer + 1 + j = pointer + (j + 1) from by omega]
            exact helig)
        (fun j' hj' => by
          rw [show pointer + 1 + j' = pointer + (j' + 1) from by omega]
          exact hmin (j' + 1) (by omega))
      rw [show pointer + 1 + j = pointer + (j + 1) from by omega] at hrec
      exact hrec

/-- When every walk position is occupied by an already-drawn user, the
walk returns none. -/
lemma walkFrom_none {alt : List Participant} {drawn : List Nat}
    (hL : alt.length ≠ 0) :
    ∀ (fuel pointer : Nat),
      (∀ j < fuel, ¬ eligibleAt alt drawn (pointer + j)) →
      walkFrom alt drawn pointer fuel = none := by
  intro fuel
  induction fuel with
  | zero => intro pointer hall; rfl
  | succ f ih =>
    intro pointer hall
    unfold walkFrom
    rw [if_neg hL]
    rw [if_pos (by simpa [eligibleAt] using hall 0 (by omega))]
    exact ih (pointer + 1) (fun j hj => by
      rw [show pointer + 1 + j = pointer + (j + 1) from by omega]
      exact hall (j + 1) (by omega))

/-- If some member of the alternating sequence has not drawn, some
walk offset is eligible. -/
lemma exists_eligible_offset {alt : List Participant} {drawn : List Nat}
    (pointer : Nat)
    (hsome : ∃ c ∈ alt, c.userId ∉ drawn) :
    ∃ i, eligibleAt alt drawn (pointer + i) := by
  obtain ⟨c, hc, hcd⟩ := hsome
  obtain ⟨m, hm, rfl⟩ := List.getElem_of_mem hc
  have hL : 0 < alt.length := by omega
  refine ⟨(m + alt.length - pointer % alt.length) % alt.length, ?_⟩
  have hidx : (pointer + (m + alt.length - pointer % alt.length) %
      alt.length) % alt.length = m := by
    rw [← Nat.mod_add_mod, Nat.add_mod_mod]
    have hple : pointer % alt.length ≤ m + alt.length :=
      le_trans (le_of_lt (Nat.mod_lt _ hL)) (by omega)
    rw [show pointer % alt.length + (m + alt.length - pointer % alt.length)
      = m + alt.length by omega]
    rw [Nat.add_mod_right]
    exact Nat.mod_eq_of_lt hm
  unfold eligibleAt
  rw [hidx, List.getD_eq_getElem _ _ hm]
  exact hcd

/-- C3: in team mode with both teams non-empty, the selection walks
the alternating interleaved sequence from the rotation pointer,
skipping every candidate already present in drawnUserIds and picking
the first eligible one, whose userId is then appended to drawnUserIds
(so no participant is selected twice within one cycle); drawnUserIds
resets to empty exactly when all active team members have drawn, in
which case alternatingList[pointer] is taken directly; and if either
team is empty the selection degrades to exactly the flat (1v1)
rotation over all active participants. -/
theorem claim3_team_rotation (active : List Participant) (pointer : Nat)
    (drawn : List Nat) :
    (∀ (hblue : blueOf (sortByUserId active) ≠ [])
      (horange : orangeOf (sortByUserId active) ≠ [])
      (hsome : ∃ c ∈ altOf (sortByUserId active), c.userId ∉ drawn),
      ∃ i < (altOf (sortByUserId active)).length,
        (∀ j < i, ¬ eligibleAt (altOf (sortByUserId active)) drawn
          (pointer + j)) ∧
        eligibleAt (altOf (sortByUserId active)) drawn (pointer + i) ∧
        selectDrawerCore "team_vs_team" active pointer drawn = some
          { drawer := (altOf (sortByUserId active)).getD
              ((pointer + i) % (altOf (sortByUserId active)).length) defaultP,
            pointer := ((pointer + i) % (altOf (sortByUserId active)).length
              + 1) % (altOf (sortByUserId active)).length,
            drawnUserIds := drawn ++
              [((altOf (sortByUserId active)).getD
                ((pointer + i) % (altOf (sortByUserId active)).length)
                defaultP).userId] }) ∧
    (∀ (hblue : blueOf (sortByUserId active) ≠ [])
      (horange : orangeOf (sortByUserId active) ≠ [])
      (hall : ∀ c ∈ altOf (sortByUserId active), c.userId ∈ drawn)
      (hp : pointer < (altOf (sortByUserId active)).length),
      selectDrawerCore "team_vs_team" active pointer drawn = some
        { drawer := (altOf (sortByUserId active)).getD pointer defaultP,
          pointer := (pointer + 1) % (altOf (sortByUserId active)).length,
          drawnUserIds :=
            [((altOf (sortByUserId active)).getD pointer defaultP).userId] }) ∧
    (∀ (hteam : blueOf (sortByUserId active) = [] ∨
        orangeOf (sortByUserId active) = []),
      selectDrawerCore "team_vs_team" active pointer drawn =
        selectDrawerCore "1v1" active pointer drawn) ∧
    (∀ r, selectDrawerCore "team_vs_team" active pointer drawn = some r →
      blueOf (sortByUserId active) ≠ [] →
      orangeOf (sortByUserId active) ≠ [] →
      (∃ c ∈ altOf (sortByUserId active), c.userId ∉ drawn) →
      r.drawer.userId ∉ drawn ∧
        r.drawnUserIds = drawn ++ [r.drawer.userId]) := by
  have hsortne : blueOf (sortByUserId active) ≠ [] →
      sortByUserId active ≠ [] := by
    intro hblue hs
    apply hblue
    cases hb : blueOf (sortByUserId active) with
    | nil => rfl
    | cons c l =>
      have hc : c ∈ sortByUserId active := by
        have : c ∈ blueOf (sortByUserId active) := by rw [hb]; simp
        simp only [blueOf, List.mem_insertionSort, List.mem_filter] at this
        exact this.1
      rw [hs] at hc
      exact absurd hc (List.not_mem_nil c)
  have hfirst : ∀ (hblue : blueOf (sortByUserId active) ≠ [])
      (horange : orangeOf (sortByUserId active) ≠ [])
      (hsome : ∃ c ∈ altOf (sortByUserId active), c.userId ∉ drawn),
      ∃ i < (altOf (sortByUserId active)).length,
        (∀ j < i, ¬ eligibleAt (altOf (sortByUserId active)) drawn
          (pointer + j)) ∧
        eligibleAt (altOf (sortByUserId active)) drawn (pointer + i) ∧
        selectDrawerCore "team_vs_team" active pointer drawn = some
          { drawer := (altOf (sortByUserId active)).getD
              ((pointer + i) % (altOf (sortByUserId active)).length) defaultP,
            pointer := ((pointer + i) % (altOf (sortByUserId active)).length
              + 1) % (altOf (sortByUserId active)).length,
            drawnUserIds := drawn ++
              [((altOf (sortByUserId active)).getD
                ((pointer + i) % (altOf (sortByUserId active)).length)
                defaultP).userId] } := by
    intro hblue horange hsome
    obtain ⟨c0, hc0, hc0d⟩ := hsome
    have hL : (altOf (sortByUserId active)).length ≠ 0 := by
      intro hz
      rw [List.length_eq_zero] at hz
      rw [hz] at hc0
      exact absurd hc0 (List.not_mem_nil c0)
    have hex := exists_eligible_offset pointer ⟨c0, hc0, hc0d⟩
    set i0 := Nat.find hex with hi0def
    have hi0elig := Nat.find_spec hex
    have hi0min : ∀ j < i0, ¬ eligibleAt (altOf (sortByUserId active))
        drawn (pointer + j) := fun j hj => Nat.find_min hex hj
    have hi0lt : i0 < (altOf (sortByUserId active)).length := by
      obtain ⟨m, hm, rfl⟩ := List.getElem_of_mem hc0
      have hcand := @exists_eligible_offset (altOf (sortByUserId active))
        drawn pointer ⟨_, List.getElem_mem hm, hc0d⟩
      have : (m + (altOf (sortByUserId active)).length - pointer %
          (altOf (sortByUserId active)).length) %
          (altOf (sortByUserId active)).length <
          (altOf (sortByUserId active)).length :=
        Nat.mod_lt _ (Nat.pos_of_ne_zero hL)
      calc i0 ≤ (m + (altOf (sortByUserId active)).length - pointer %
            (altOf (sortByUserId active)).length) %
            (altOf (sortByUserId active)).length := by
            apply Nat.find_min'
            have hidx : (pointer + (m + (altOf (sortByUserId active)).length
                - pointer % (altOf (sortByUserId active)).length) %
                (altOf (sortByUserId active)).length) %
                (altOf (sortByUserId active)).length = m := by
              rw [← Nat.mod_add_mod, Nat.add_mod_mod]
              have hple : pointer % (altOf (sortByUserId active)).length ≤
                  m + (altOf (sortByUserId active)).length :=
                le_trans (le_of_lt (Nat.mod_lt _ (Nat.pos_of_ne_zero hL)))
                  (by omega)
              rw [show pointer % (altOf (sortByUserId active)).length +
                (m + (altOf (sortByUserId active)).length - pointer %
                  (altOf (sortByUserId active)).length)
                = m + (altOf (sortByUserId active)).length by omega]
              rw [Nat.add_mod_right]
              exact Nat.mod_eq_of_lt hm
            unfold eligibleAt
            rw [hidx, List.getD_eq_getElem _ _ hm]
            exact hc0d
          _ < (altOf (sortByUserId active)).length := this
    refine ⟨i0, hi0lt, hi0min, hi0elig, ?_⟩
    unfold selectDrawerCore
    rw [if_neg (hsortne hblue), if_neg (by decide),
      if_neg (not_or.2 ⟨hblue, horange⟩)]
    unfold teamPick
    rw [walkFrom_found hL i0 (altOf (sortByUserId active)).length pointer
      hi0lt hi0elig hi0min]
    simp only [Option.map_some', Option.some.injEq, finishPick]
    have : ¬ ((altOf (sortByUserId active)).getD
        ((pointer + i0) % (altOf (sortByUserId active)).length)
        defaultP).userId ∈ drawn := by
      have := hi0elig
      unfold eligibleAt at this
      exact this
    rw [if_neg this]
  refine ⟨hfirst, ?_, ?_, ?_⟩
  · intro hblue horange hall hp
    have hL : (altOf (sortByUserId active)).length ≠ 0 := by omega
    unfold selectDrawerCore
    rw [if_neg (hsortne hblue), if_neg (by decide),
      if_neg (not_or.2 ⟨hblue, horange⟩)]
    unfold teamPick
    rw [walkFrom_none hL (altOf (sortByUserId active)).length pointer
      (fun j hj => by
        unfold eligibleAt
        intro helig
        exact helig (hall _ (by
          rw [List.getD_eq_getElem _ _
            (Nat.mod_lt _ (Nat.pos_of_ne_zero hL))]
          exact List.getElem_mem _)))]
    rw [List.getElem?_eq_getElem hp]
    simp only [Option.map_some', Option.some.injEq, finishPick]
    rw [if_neg (List.not_mem_nil _)]
    rw [List.getD_eq_getElem _ _ hp]
    simp
  · intro hteam
    unfold selectDrawerCore
    by_cases hs : sortByUserId active = []
    · rw [if_pos hs, if_pos hs]
    · rw [if_neg hs, if_neg hs, if_neg (by decide), if_pos hteam,
        if_pos rfl]
  · intro r hr hblue horange hsome
    obtain ⟨i, hiL, hmin, helig, heq⟩ := hfirst hblue horange hsome
    rw [heq, Option.some.injEq] at hr
    rw [← hr]
    refine ⟨?_, rfl⟩
    have := helig
    unfold eligibleAt at this
    exact this

/-- Witness for C3: with one team empty the team-mode selection
equals flat selection; with every member drawn, the cycle resets and
alternatingList[pointer] is picked with drawnUserIds [2]; and a fresh
cycle picks an undrawn member and appends it. -/
theorem claim3_witness :
    (selectDrawerCore "team_vs_team" [cexQ1, cexQ2] 0 [] =
      selectDrawerCore "1v1" [cexQ1, cexQ2] 0 []) ∧
    (selectDrawerCore "team_vs_team" [cexQ1, cexQ2, cexQ3, cexQ4] 2
        [1, 3, 2, 4] =
      some { drawer := cexQ2, pointer := 3, drawnUserIds := [2] }) ∧
    (({ drawer := cexQ1, pointer := 1, drawnUserIds := [1] } :
        SelectResult).drawer.userId ∉ ([] : List Nat) ∧
      ({ drawer := cexQ1, pointer := 1, drawnUserIds := [1] } :
        SelectResult).drawnUserIds =
        [] ++ [({ drawer := cexQ1, pointer := 1, drawnUserIds := [1] } :
          SelectResult).drawer.userId]) :=
  ⟨(claim3_team_rotation [cexQ1, cexQ2] 0 []).2.2.1 (by decide),
   ((claim3_team_rotation [cexQ1, cexQ2, cexQ3, cexQ4] 2
       [1, 3, 2, 4]).2.1 (by decide) (by decide) (by decide)
       (by decide)).trans (by decide),
   (claim3_team_rotation [cexQ1, cexQ2, cexQ3, cexQ4] 0 []).2.2.2
     { drawer := cexQ1, pointer := 1, drawnUserIds := [1] }
     (by decide) (by decide) (by decide) ⟨cexQ1, by decide, by decide⟩⟩

/-- C5: in team mode a guess by a participant whose team differs from
the drawer's team is rejected wrong_team with NO state change (before
any scoring), so opposing-team guesses never score nor count; and on
every accepted correct guess the early round end fires exactly when
the count of active participants with hasGuessedThisRound reaches the
eligible count — active non-drawers, scoped to the drawer's own team
in team mode (the guesser's team equals the drawer's team because the
wrong_team guard passed). -/
theorem claim5_team_guard_early_end (s : GState) (uid : Nat) (g : String) :
    (∀ (cw : String) (part drawer : Participant) (did : Nat),
      s.room.gameMode = "team_vs_team" →
      s.room.roundPhase = Phase.drawing →
      s.room.currentWord = some cw →
      findParticipant s.participants uid = some part →
      part.isDrawer = false →
      part.hasGuessedThisRound = false →
      s.room.currentDrawerId = some did →
      findParticipant s.participants did = some drawer →
      part.team ≠ drawer.team →
      submitGuessStep uid g s = (GuessOutcome.rejected "wrong_team", s)) ∧
    (∀ (rw : Nat) (e : Bool) (s' : GState) (did : Nat)
      (drawer : Participant),
      submitGuessStep uid g s = (GuessOutcome.correct rw e, s') →
      s.room.currentDrawerId = some did →
      findParticipant s.participants did = some drawer →
      (e = true ↔
        specEligibleCount s.room.gameMode drawer.team s'.participants ≤
          countP s'.participants
            (fun p => p.isActive && p.hasGuessedThisRound))) := by
  constructor
  · intro cw part drawer did hmode hphase hword hfind hnd hng hdid hdrawer
      hteam
    have htf : guessTeamFail s part = true := by
      simp [guessTeamFail, hmode, hdid, hdrawer, hteam]
    unfold submitGuessStep
    simp [hphase, hword, hfind, hnd, hng, htf]
  · intro rw' e s' did drawer h hdid hdrawer
    obtain ⟨part, hpart, -, -, -, -, hs', he, hteamEq⟩ :=
      submitGuess_correct_shape h
    subst hs'
    subst he
    unfold guessEarlyEnd specEligibleCount
    by_cases hmode : s.room.gameMode = "team_vs_team"
    · have hteq := hteamEq hmode did drawer hdid hdrawer
      rw [if_pos hmode, if_pos hmode, hteq]
      simp
    · rw [if_neg hmode, if_neg hmode]
      simp

/-- Witness for C5: in the concrete team room, orange player 3's
correct word is rejected wrong_team with the state unchanged, and blue
player 2's correct guess ends the round early exactly because the one
eligible blue guesser has guessed. -/
theorem claim5_witness :
    submitGuessStep 3 "apple" cexTeamS =
      (GuessOutcome.rejected "wrong_team", cexTeamS) ∧
    (true = true ↔
      specEligibleCount cexTeamS.room.gameMode cexQ1.team
        (submitGuessStep 2 "apple" cexTeamS).2.participants ≤
        countP (submitGuessStep 2 "apple" cexTeamS).2.participants
          (fun p => p.isActive && p.hasGuessedThisRound)) :=
  ⟨(claim5_team_guard_early_end cexTeamS 3 "apple").1 "apple" cexQ3 cexQ1 1
      rfl rfl rfl (by decide) (by decide) (by decide) rfl (by decide)
      (by decide),
   (claim5_team_guard_early_end cexTeamS 2 "apple").2 8 true
      (submitGuessStep 2 "apple" cexTeamS).2 1 cexQ1 (by decide) rfl
      (by decide)⟩

/-- C1 counterexample: the reveal-to-interval transition timer's
callback does not verify that the phase still equals reveal: fired on
a reachable state whose phase is drawing, it mutates the room (to the
interval phase) instead of being a stale no-op. -/
theorem claim1_counterexample :
    cexS3.room.roundPhase = Phase.drawing ∧
    cexS3.room.roundPhase ≠ Phase.reveal ∧
    startIntervalPhaseStep cexS3 ≠ cexS3 ∧
    (startIntervalPhaseStep cexS3).room.roundPhase = Phase.interval := by
  decide

end InkBattle
